import Mathlib

/-
Verification development for the nixseparatedebuginfod indexing and retrieval
engine (src/store.rs and src/server.rs).

Shallow embedding conventions:
  - Paths and store paths are Lean `String`s.  All paths occurring here are
    ASCII, so Rust byte indexing/slicing coincides with character
    indexing/slicing and `String.take` / `String.drop` model `&s[..k]` /
    `&s[k..]` faithfully (except that Rust panics on an out-of-range slice,
    which is modelled explicitly with `Option`).
  - Filesystem access and subprocess invocations are modelled by a `World` of
    oracles: each field corresponds to exactly one effectful call site of the
    Rust code (`Path::is_dir`, `Path::is_file`, `std::fs::read_dir`,
    `walkdir::WalkDir` filtered to regular files, `get_deriver`,
    `get_debug_output`, `get_buildid`).
  - Fallible Rust code (`anyhow::Result`) becomes `Except`.
  - The Rust i64 `Timestamp` is modelled as `Nat`; nix registration times are
    nonnegative epoch seconds.
-/

namespace NixSDI

/-- Index record, mirroring `Entry` as constructed in `src/store.rs`
(declared in the crate's `db` module, outside the provided sources; the field
set and types are fully determined by the construction sites at
store.rs:112-117 and store.rs:184-189). -/
structure Entry where
  buildid : String
  executable : Option String
  debuginfo : Option String
  source : Option String
deriving DecidableEq, Repr

/-- Rust `PathBuf::push` with a relative component: appends a separator and
the component. -/
def pathPush (p c : String) : String := p ++ "/" ++ c

/-- Rust `str::starts_with` on a string prefix (and unix `Path::is_absolute`,
which tests for a leading `/`). -/
def strStartsWith (s pre : String) : Bool := pre.data.isPrefixOf s.data

/-- Rust `str::ends_with` on a string suffix. -/
def strEndsWith (s suf : String) : Bool := suf.data.isSuffixOf s.data

/-- Split a character list at every occurrence of `c` (the pieces, in order,
with separators removed). -/
def splitOnChar (c : Char) : List Char → List (List Char)
  | [] => [[]]
  | x :: xs =>
    let r := splitOnChar c xs
    if x == c then [] :: r
    else
      match r with
      | [] => [[x]]
      | y :: ys => (x :: y) :: ys

/-- Components of a path, for modelling Rust `Path::ends_with`
(`Path::components` on a normal absolute path without `.`/`..`). -/
def pathComponents (p : String) : List String :=
  ((splitOnChar '/' p.data).map String.mk).filter (fun c => c != "")

/-- Rust `Path::ends_with child`: the final components of `self` must equal
all components of `child` (whole components only, not a string suffix). -/
def pathEndsWithComp (p child : String) : Bool :=
  (pathComponents child).isSuffixOf (pathComponents p)

/-- Model of `debuginfo_path_for` (store.rs:198-206).  Rust slices
`&buildid[..2]` / `&buildid[2..]`, which panics when the buildid is shorter
than 2 bytes; the panic is modelled as `none`. -/
def debuginfo_path_for (buildid dout : String) : Option String :=
  if buildid.length < 2 then none
  else some (pathPush (pathPush (pathPush (pathPush (pathPush dout "lib")
    "debug") ".build-id") (buildid.take 2)) (buildid.drop 2 ++ ".debug"))

/-- The debug-file path the spec predicts:
`out/lib/debug/.build-id/buildid[0:2]/buildid[2:].debug`
(spec-side formula, to be compared with `debuginfo_path_for`). -/
def predictedDebugPath (buildid dout : String) : String :=
  dout ++ "/lib/debug/.build-id/" ++ buildid.take 2 ++ "/"
    ++ (buildid.drop 2 ++ ".debug")

/-- Captured output of a subprocess (`std::process::Output`): exit status and
stdout bytes.  Stdout is ASCII in all uses here, so bytes are `Char`s. -/
structure CmdOutput where
  success : Bool
  stdout : List Char

/-- The distinct `anyhow::bail!` sites of `get_deriver` (store.rs:211-233). -/
inductive DeriverError where
  | commandFailed
  | weirdOutput
  | noDeriver
deriving DecidableEq, Repr

/-- Model of `get_deriver` (store.rs:211-233) as a pure function of the
subprocess output of `nix-store --query --deriver`.  `Path::is_absolute` on
unix means "starts with `/`". -/
def get_deriver (out : CmdOutput) : Except DeriverError String :=
  if out.success = false then .error .commandFailed
  else if out.stdout.length ≤ 1 ∨ out.stdout.getLast? ≠ some '\n' then
    .error .weirdOutput
  else
    let path := String.mk out.stdout.dropLast
    if strStartsWith path "/" = false then .error .noDeriver
    else .ok path

/-- One hex digit of `base16::encode_lower`. -/
def hexChar (n : Nat) : Char :=
  if n < 10 then Char.ofNat ('0'.toNat + n) else Char.ofNat ('a'.toNat + (n - 10))

/-- Model of `base16::encode_lower` on a byte slice (store.rs:276): two
lowercase hex characters per byte. -/
def encode_lower (bytes : List Nat) : String :=
  String.mk (bytes.foldr (fun b acc => hexChar (b / 16 % 16) :: hexChar (b % 16) :: acc) [])

/-- Information about one `std::fs::DirEntry`: its file name and its
`file_type()` checks as used by the scanner (`unwrap_or(false)` on error is
already folded into the two booleans). -/
structure DirEntryInfo where
  name : String
  isDir : Bool
  isFile : Bool
deriving DecidableEq, Repr

/-- Oracles for the effectful calls of `register_store_path`.  `readDir`
returns `none` when `std::fs::read_dir` fails, and otherwise the entries that
come back `Ok` (per-entry iteration errors are skipped by the code and thus
folded away); names are assumed valid UTF-8 (the code skips non-UTF-8 names).
`walkFiles` is the `walkdir::WalkDir` traversal already filtered to entries
whose file type is a regular file (walk errors are skipped by the code).
`getBuildid` is `get_buildid`; the code treats both `Err` and `Ok(None)` as
"skip this file", so both collapse to `none`. -/
structure World where
  isDir : String → Bool
  isFile : String → Bool
  readDir : String → Option (List DirEntryInfo)
  walkFiles : String → List String
  getDeriver : String → Except Unit String
  debugOutputOf : String → Except Unit (Option String)
  getBuildid : String → Option String

/-- Model of the `deriver_source` lazy value (store.rs:36-48).  The forced
value is what matters for the emitted entries; the first component is the
deriver used for the debug-output query, the second is the `source` stored in
emitted entries. -/
def deriver_source (w : World) (storepath : String) : Option String × Option String :=
  match w.getDeriver storepath with
  | .error _ => (none, none)
  | .ok deriver => if w.isFile deriver then (some deriver, none) else (none, none)

/-- Model of the `debug_output` lazy value (store.rs:124-142): query
`get_debug_output` on the deriver; all failures collapse to `none`. -/
def debug_output (w : World) (storepath : String) : Option String :=
  match (deriver_source w storepath).1 with
  | none => none
  | some deriver =>
    match w.debugOutputOf deriver with
    | .error _ => none
    | .ok none => none
    | .ok (some d) => some d

/-- The `-debug` branch of `register_store_path` (store.rs:49-122): walk
`storepath/lib/debug`, and for each entry `mid` that passes the file-type
check, list it and emit one entry per contained regular file named
`<yyyy>.debug`.  Note the code at store.rs:71 `continue`s when `mid` *is* a
directory. -/
def scanDebug (w : World) (storepath : String) : List Entry :=
  let root := pathPush (pathPush storepath "lib") "debug"
  if w.isDir root = false then []
  else
    match w.readDir root with
    | none => []
    | some mids =>
      (mids.map (fun mid =>
        if mid.isDir then []
        else
          let midPath := pathPush root mid.name
          match w.readDir midPath with
          | none => []
          | some ends =>
            ends.filterMap (fun e =>
              if e.isFile = false then none
              else if strEndsWith e.name ".debug" = false then none
              else
                some { buildid := mid.name ++ e.name.dropRight ".debug".length
                       executable := none
                       debuginfo := some (pathPush midPath e.name)
                       source := (deriver_source w storepath).2 }))).flatten

/-- Per-file step of the ordinary-output branch (store.rs:151-192): extract
the buildid, predict the separate-debug path when a debug output is known,
check the prediction only when the debug output is present locally. -/
def ordinaryEntry (w : World) (storepath path : String) : Option Entry :=
  match w.getBuildid path with
  | none => none
  | some buildid =>
    let debuginfo : Option String :=
      match debug_output w storepath with
      | none => none
      | some dout =>
        match debuginfo_path_for buildid dout with
        | none => none
        | some theoretical =>
          if w.isDir dout then
            if w.isFile theoretical = false then none else some theoretical
          else some theoretical
    some { buildid := buildid
           executable := some path
           debuginfo := debuginfo
           source := (deriver_source w storepath).2 }

/-- The ordinary-output branch of `register_store_path` (store.rs:143-193). -/
def scanOrdinary (w : World) (storepath : String) : List Entry :=
  (w.walkFiles storepath).filterMap (ordinaryEntry w storepath)

/-- Model of `register_store_path` (store.rs:31-195); the returned list is the
sequence of entries passed to `sendto.blocking_send`. -/
def register_store_path (w : World) (storepath : String) : List Entry :=
  if w.isDir storepath = false then []
  else if pathEndsWithComp storepath "-debug" then scanDebug w storepath
  else scanOrdinary w storepath

/-- One row of the nix db `ValidPaths` table as read by the batch query
(store.rs:357-375): the `path` and `registrationTime` columns. -/
structure Row where
  path : String
  time : Nat
deriving DecidableEq, Repr

/-- The corrupt-row guard of store.rs:366: expected prefix and exactly three
slashes. -/
def validStorePath (p : String) : Bool :=
  strStartsWith p "/nix/store" && ((p.data.filter (fun c => c == '/')).length == 3)

/-- The `anyhow::bail!` sites of `get_new_store_path_batch`
(store.rs:367 and store.rs:383). -/
inductive BatchError where
  | corruptRow (path : String)
  | inconsistent
deriving DecidableEq, Repr

/-- Insertion step of an ascending sort, modelling SQL `order by ... asc`. -/
def insertTime (t : Nat) : List Nat → List Nat
  | [] => [t]
  | x :: xs => if t ≤ x then t :: x :: xs else x :: insertTime t xs

/-- Ascending sort of the candidate timestamps (`order by registrationTime
asc`); SQL sorting is only used through `take`/`max`, which depend on the
multiset alone, so any ascending sort is a faithful model. -/
def sortTimes : List Nat → List Nat
  | [] => []
  | x :: xs => insertTime x (sortTimes xs)

/-- The SQL subquery of store.rs:357: the first 100 registration times `≥ lo`
in ascending order. -/
def candidateTimes (db : List Row) (lo : Nat) : List Nat :=
  (sortTimes ((db.filter (fun r => decide (lo ≤ r.time))).map Row.time)).take 100

/-- `select max(registrationTime) from candidates`: `none` is SQL NULL on an
empty candidate set. -/
def maxCandidate (db : List Row) (lo : Nat) : Option Nat :=
  match candidateTimes db lo with
  | [] => none
  | t :: ts => some ((t :: ts).foldl Nat.max 0)

/-- The rows returned by the outer query of store.rs:357: registration time
between `lo` and the candidate maximum (a comparison with NULL selects
nothing). -/
def batchRows (db : List Row) (lo : Nat) : List Row :=
  match maxCandidate db lo with
  | none => []
  | some t => db.filter (fun r => decide (lo ≤ r.time) && decide (r.time ≤ t))

/-- The row loop of store.rs:364-377: check each path, accumulate paths in
order and the running maximum of the times (`max_time` starts at 0), bailing
on the first corrupt row. -/
def collectGo : List Row → List String → Nat → Except BatchError (List String × Nat)
  | [], paths, maxTime => .ok (paths, maxTime)
  | r :: rest, paths, maxTime =>
    if validStorePath r.path = false then .error (.corruptRow r.path)
    else collectGo rest (paths ++ [r.path]) (Nat.max r.time maxTime)

/-- Model of `get_new_store_path_batch` (store.rs:343-386) as a function of
the nix db contents and the watermark. -/
def get_new_store_path_batch (db : List Row) (lo : Nat) :
    Except BatchError (List String × Nat) :=
  match collectGo (batchRows db lo) [] 0 with
  | .error e => .error e
  | .ok (paths, maxTime) =>
    if (maxTime == 0) ^^ paths.isEmpty then .error .inconsistent
    else .ok (paths, maxTime + 1)

/-- The watermark update of the polling loop (store.rs:312-338): the next
`from_timestamp` after one `get_new_store_path_batch` result — unchanged on
error and on an empty batch, otherwise the returned timestamp. -/
def pollerStep (fromTs : Nat) (res : Except BatchError (List String × Nat)) : Nat :=
  match res with
  | .error _ => fromTs
  | .ok (paths, t) => if paths.isEmpty then fromTs else t

/-- Effect trace of `unwrap_file` (server.rs:27-39): the `realise` invocation
and the `NamedFile::open` that follows a successful one. -/
inductive ServeEvent where
  | realiseCall (p : String)
  | openFile (p : String)
deriving DecidableEq, Repr

/-- Response classification of the handlers: `serveFile p` is the 200 path
(the body streamed from `p` by `NamedFile`), `notFound` the 404 produced via
`NotFoundError`. -/
inductive HttpOutcome where
  | serveFile (p : String)
  | notFound
deriving DecidableEq, Repr

/-- Model of `unwrap_file` (server.rs:27-39): given the cache-lookup result
and the success predicate of `realise`, the effect trace (in order) and the
response. -/
def unwrap_file (lookup : Except String (Option String)) (realiseOk : String → Bool) :
    List ServeEvent × HttpOutcome :=
  match lookup with
  | .ok (some p) =>
    if realiseOk p then ([.realiseCall p, .openFile p], .serveFile p)
    else ([.realiseCall p], .notFound)
  | .ok none => ([], .notFound)
  | .error _ => ([], .notFound)

/-- Model of the `get_debuginfo` handler (server.rs:41-48):
`cache.get_debuginfo` then `unwrap_file`. -/
def get_debuginfo (cacheGet : String → Except String (Option String))
    (realiseOk : String → Bool) (buildid : String) : List ServeEvent × HttpOutcome :=
  unwrap_file (cacheGet buildid) realiseOk

/-- Model of the `get_executable` handler (server.rs:50-57). -/
def get_executable (cacheGet : String → Except String (Option String))
    (realiseOk : String → Bool) (buildid : String) : List ServeEvent × HttpOutcome :=
  unwrap_file (cacheGet buildid) realiseOk

/-- Model of `fetch_and_get_source` (server.rs:59-80): look up `source`,
realise it (failure propagates as an error), then resolve the requested file
inside the source tree (`get_file_for_source` is an oracle here: it is
declared in the crate outside the provided sources). -/
def fetch_and_get_source (srcGet : String → Except String (Option String))
    (realiseOk : String → Bool) (fileFor : String → String → Except String (Option String))
    (buildid req : String) : Except String (Option String) :=
  match srcGet buildid with
  | .error e => .error e
  | .ok none => .ok none
  | .ok (some src) =>
    if realiseOk src = false then .error "realise failed"
    else fileFor src req

/-- Model of the `get_source` handler (server.rs:82-90). -/
def get_source (srcGet : String → Except String (Option String))
    (realiseOk : String → Bool) (fileFor : String → String → Except String (Option String))
    (buildid req : String) : List ServeEvent × HttpOutcome :=
  unwrap_file (fetch_and_get_source srcGet realiseOk fileFor buildid req) realiseOk

/-
Pipeline model for the batch barrier (store.rs:282-341), for one non-empty
batch handled by the `Ok((paths, time))` arm of the poller.  Paths are
numbered `0, ..., cfg.length - 1` and `cfg[p]` is the number of entries path
`p` yields; entry `e` of path `p` is identified by the pair `(p, e)`.
Events:
  - `offer p e`: the scan worker's `sendto.blocking_send(entry)` returns
    (store.rs:118/190) — the entry now sits in the bounded `entry_ch`;
  - `done p`: the worker's `path_done_sender.blocking_send(())`
    (store.rs:301), only after its scan finished every send;
  - `register p e`: the writer task receives the entry from `entry_ch` and
    calls `cache.register` (store.rs:288-292), in channel FIFO order;
  - `commit`: the poller, having received `paths.len()` completions from
    `done_ch` (store.rs:329-331), calls
    `cache.set_registration_timestamp(time)` (store.rs:332).
-/
inductive PipeEvent where
  | offer (p e : Nat)
  | done (p : Nat)
  | register (p e : Nat)
  | commit
deriving DecidableEq, Repr

/-- Pipeline state: per-path count of entries already offered, per-path
completion flag, contents of the bounded entry channel, and whether the
watermark was committed. -/
structure PipeState where
  sent : List Nat
  doneFlag : List Bool
  chan : List (Nat × Nat)
  committed : Bool
deriving DecidableEq, Repr

/-- Capacity of `entry_ch` (store.rs:286). -/
def chanCap : Nat := 200

/-- Initial pipeline state for a batch of `cfg.length` paths. -/
def initState (cfg : List Nat) : PipeState :=
  { sent := List.replicate cfg.length 0
    doneFlag := List.replicate cfg.length false
    chan := []
    committed := false }

/-- One interleaving step; `none` means the event is not enabled in this
state. -/
def step (cfg : List Nat) (s : PipeState) : PipeEvent → Option PipeState
  | .offer p e =>
    match s.sent[p]?, s.doneFlag[p]?, cfg[p]? with
    | some k, some df, some tot =>
      if df = false ∧ e = k ∧ k < tot ∧ s.chan.length < chanCap then
        some { s with sent := s.sent.set p (k + 1), chan := s.chan ++ [(p, e)] }
      else none
    | _, _, _ => none
  | .done p =>
    match s.sent[p]?, s.doneFlag[p]?, cfg[p]? with
    | some k, some df, some tot =>
      if df = false ∧ k = tot then some { s with doneFlag := s.doneFlag.set p true }
      else none
    | _, _, _ => none
  | .register p e =>
    match s.chan with
    | [] => none
    | (q, f) :: rest => if p = q ∧ e = f then some { s with chan := rest } else none
  | .commit =>
    if s.doneFlag.all (fun b => b) ∧ s.committed = false then
      some { s with committed := true }
    else none

/-- Run a sequence of events from a state; `none` when some event was not
enabled. -/
def run (cfg : List Nat) : PipeState → List PipeEvent → Option PipeState
  | s, [] => some s
  | s, ev :: tr =>
    match step cfg s ev with
    | none => none
    | some s2 => run cfg s2 tr

/-- A trace is a legal interleaving of one batch iff it runs from the initial
state. -/
def validTrace (cfg : List Nat) (tr : List PipeEvent) : Bool :=
  (run cfg (initState cfg) tr).isSome

/-- Invariant: once the watermark is committed, every path's completion flag
is set (commit is only enabled after `paths.len()` completions). -/
def allDoneInv (s : PipeState) : Prop :=
  s.committed = true → s.doneFlag.all (fun b => b) = true

/-- Running maximum of the registration times, as the row loop computes it
(`max_time` initialised to 0, `time.max(max_time)` in row order). -/
def rowsMax (l : List Row) : Nat :=
  l.foldl (fun acc r => Nat.max r.time acc) 0

/-- Store path of a concrete ordinary output whose deriver query succeeds and
whose deriver is a regular file. -/
def c1sp : String := "/nix/store/aaa-hello"

/-- The single ELF file inside `c1sp`. -/
def c1exe : String := "/nix/store/aaa-hello/bin/hello"

/-- The deriver of `c1sp`; present on disk as a regular file. -/
def c1drv : String := "/nix/store/d.drv"

/-- Concrete filesystem for the source-field scenario: `c1sp` is a directory
holding one ELF with buildid `0123abcd`, its deriver query returns `c1drv`,
and `c1drv` is a regular file. -/
def c1World : World where
  isDir := fun p => p == c1sp
  isFile := fun p => p == c1drv
  readDir := fun _ => none
  walkFiles := fun p => if p == c1sp then [c1exe] else []
  getDeriver := fun p => if p == c1sp then .ok c1drv else .error ()
  debugOutputOf := fun _ => .ok none
  getBuildid := fun p => if p == c1exe then some "0123abcd" else none

/-- Store path of the ordinary output for the debug-path-prediction
scenario. -/
def c4sp : String := "/nix/store/aaa-hello"

/-- The ELF inside `c4sp`. -/
def c4exe : String := "/nix/store/aaa-hello/bin/hello"

/-- Deriver of `c4sp`. -/
def c4drv : String := "/nix/store/d.drv"

/-- The `-debug` output of the deriver. -/
def c4dout : String := "/nix/store/bbb-hello-debug"

/-- The debug file predicted for buildid `0123abcd` in `c4dout`. -/
def c4pred : String := "/nix/store/bbb-hello-debug/lib/debug/.build-id/01/23abcd.debug"

/-- Concrete filesystem for the prediction scenario: the debug output exists
locally and contains the predicted file. -/
def c4World : World where
  isDir := fun p => p == c4sp || p == c4dout
  isFile := fun p => p == c4drv || p == c4pred
  readDir := fun _ => none
  walkFiles := fun p => if p == c4sp then [c4exe] else []
  getDeriver := fun p => if p == c4sp then .ok c4drv else .error ()
  debugOutputOf := fun p => if p == c4drv then .ok (some c4dout) else .error ()
  getBuildid := fun p => if p == c4exe then some "0123abcd" else none

/-- A realistic split-debug store path (string suffix `-debug`, whole final
component `bbb-hello-debug`). -/
def c5sp1 : String := "/nix/store/bbb-hello-debug"

/-- The debug file laid out under `c5sp1/lib/debug/01/`. -/
def c5file1 : String := "/nix/store/bbb-hello-debug/lib/debug/01/23abcd.debug"

/-- Concrete filesystem for `c5sp1`: the split-debug layout
`lib/debug/01/23abcd.debug` exists, the file itself is not an ELF the
extractor recognises. -/
def c5World1 : World where
  isDir := fun p => p == c5sp1
    || p == "/nix/store/bbb-hello-debug/lib/debug"
    || p == "/nix/store/bbb-hello-debug/lib/debug/01"
  isFile := fun p => p == c5file1
  readDir := fun p =>
    if p == "/nix/store/bbb-hello-debug/lib/debug" then
      some [{ name := "01", isDir := true, isFile := false }]
    else if p == "/nix/store/bbb-hello-debug/lib/debug/01" then
      some [{ name := "23abcd.debug", isDir := false, isFile := true }]
    else none
  walkFiles := fun p => if p == c5sp1 then [c5file1] else []
  getDeriver := fun _ => .error ()
  debugOutputOf := fun _ => .error ()
  getBuildid := fun _ => none

/-- A store path whose final path component is literally `-debug`, the only
shape `Path::ends_with("-debug")` accepts. -/
def c5sp2 : String := "/nix/store/-debug"

/-- Concrete filesystem for `c5sp2` with the same split-debug layout. -/
def c5World2 : World where
  isDir := fun p => p == c5sp2
    || p == "/nix/store/-debug/lib/debug"
    || p == "/nix/store/-debug/lib/debug/01"
  isFile := fun p => p == "/nix/store/-debug/lib/debug/01/23abcd.debug"
  readDir := fun p =>
    if p == "/nix/store/-debug/lib/debug" then
      some [{ name := "01", isDir := true, isFile := false }]
    else if p == "/nix/store/-debug/lib/debug/01" then
      some [{ name := "23abcd.debug", isDir := false, isFile := true }]
    else none
  walkFiles := fun _ => []
  getDeriver := fun _ => .error ()
  debugOutputOf := fun _ => .error ()
  getBuildid := fun _ => none

/-- Concrete cache-lookup function: the cache knows buildid `0123abcd`. -/
def c6cache : String → Except String (Option String) :=
  fun b => if b == "0123abcd" then .ok (some "/nix/store/x/f") else .ok none

/-- Concrete `realise` success predicate: only the cached path realises. -/
def c6realise : String → Bool := fun p => p == "/nix/store/x/f"

/-! Helper lemmas. -/

theorem pathPush_pred (d x y : String) :
    pathPush (pathPush (pathPush (pathPush (pathPush d "lib") "debug") ".build-id") x) y
      = d ++ "/lib/debug/.build-id/" ++ x ++ "/" ++ y := by
  simp only [pathPush, String.append_assoc]
  rfl

theorem hexFold_length (bytes : List Nat) :
    (bytes.foldr (fun b acc => hexChar (b / 16 % 16) :: hexChar (b % 16) :: acc) []).length
      = 2 * bytes.length := by
  induction bytes with
  | nil => rfl
  | cons b bs ih => simp only [List.foldr, List.length_cons, ih, List.length]; omega

/-! Claim theorems. -/

/-- C1 (code bug): at a store path whose deriver query succeeds and whose
deriver is a regular file, the code still emits every entry with
`source = None` — store.rs:43 builds `(Some(deriver), None)` and the second
component, the only one ever stored into entries, is `None` on every branch
of store.rs:36-48. -/
theorem c1_source_never_set :
    c1World.getDeriver c1sp = Except.ok c1drv ∧
    c1World.isFile c1drv = true ∧
    register_store_path c1World c1sp =
      [{ buildid := "0123abcd", executable := some c1exe,
         debuginfo := none, source := none }] :=
  ⟨rfl, rfl, rfl⟩

/-- C5 (code bug): a split-debug tree `lib/debug/01/23abcd.debug` yields no
entry at all.  For a realistic store path (`c5sp1`) the `-debug`
classification at store.rs:49 uses `Path::ends_with`, which only matches a
whole final component, so the path is scanned as an ordinary output; and for
a path that does reach the debug branch (`c5sp2`) the check at store.rs:71
skips every entry of `lib/debug` that *is* a directory, so the `<xx>`
subdirectories are never entered. -/
theorem c5_debug_scan_emits_nothing :
    c5World1.isFile c5file1 = true ∧
    register_store_path c5World1 c5sp1 = [] ∧
    c5World2.readDir "/nix/store/-debug/lib/debug"
      = some [{ name := "01", isDir := true, isFile := false }] ∧
    c5World2.readDir "/nix/store/-debug/lib/debug/01"
      = some [{ name := "23abcd.debug", isDir := false, isFile := true }] ∧
    register_store_path c5World2 c5sp2 = [] :=
  ⟨rfl, rfl, rfl, rfl, rfl⟩

/-- C9: `get_deriver` returns the tool's stdout with the trailing newline
stripped; successful output that is not newline-terminated is an error; a
stripped path that is not absolute is reported as `no deriver`. -/
theorem c9_get_deriver_contract (out : CmdOutput) :
    (∀ s : List Char, out.success = true → out.stdout = s ++ ['\n'] → s ≠ [] →
      strStartsWith (String.mk s) "/" = true → get_deriver out = .ok (String.mk s)) ∧
    (out.success = true → out.stdout.getLast? ≠ some '\n' →
      get_deriver out = .error .weirdOutput) ∧
    (∀ s : List Char, out.success = true → out.stdout = s ++ ['\n'] → s ≠ [] →
      strStartsWith (String.mk s) "/" = false → get_deriver out = .error .noDeriver) := by
  refine ⟨?_, ?_, ?_⟩
  · intro s hsuc hout hne habs
    have hlen : ¬ (out.stdout.length ≤ 1) := by
      rw [hout]
      simp only [List.length_append, List.length_cons, List.length_nil]
      have := List.length_pos.mpr hne
      omega
    have hlast : out.stdout.getLast? = some '\n' := by
      rw [hout]; exact List.getLast?_concat s
    simp [get_deriver, hsuc, hlen, hlast, hout, List.dropLast_concat, habs, hne]
  · intro hsuc hlast
    simp only [get_deriver, hsuc]
    have : out.stdout.length ≤ 1 ∨ out.stdout.getLast? ≠ some '\n' := Or.inr hlast
    simp [this]
  · intro s hsuc hout hne habs
    have hlen : ¬ (out.stdout.length ≤ 1) := by
      rw [hout]
      simp only [List.length_append, List.length_cons, List.length_nil]
      have := List.length_pos.mpr hne
      omega
    have hlast : out.stdout.getLast? = some '\n' := by
      rw [hout]; exact List.getLast?_concat s
    simp [get_deriver, hsuc, hlen, hlast, hout, List.dropLast_concat, habs, hne]

/-- C9 witness: a concrete absolute deriver, a non-newline-terminated output,
and the `unknown-deriver` placeholder. -/
theorem c9_get_deriver_contract_witness :
    get_deriver { success := true, stdout := "/nix/store/foo.drv".data ++ ['\n'] }
      = .ok (String.mk "/nix/store/foo.drv".data) ∧
    get_deriver { success := true, stdout := "abc".data } = .error .weirdOutput ∧
    get_deriver { success := true, stdout := "unknown-deriver".data ++ ['\n'] }
      = .error .noDeriver :=
  ⟨(c9_get_deriver_contract _).1 _ rfl rfl (by decide) (by decide),
   (c9_get_deriver_contract _).2.1 rfl (by decide),
   (c9_get_deriver_contract _).2.2 _ rfl rfl (by decide) (by decide)⟩

/-- C10: the slice `&buildid[..2]` of `debuginfo_path_for` panics exactly
when the buildid has fewer than 2 bytes; a buildid produced by
`base16::encode_lower` on at least one byte has even length at least 2, so
the panic is unreachable and the function is total on such inputs. -/
theorem c10_slice_safety :
    (∀ b dout : String, b.length < 2 → debuginfo_path_for b dout = none) ∧
    (∀ (bytes : List Nat) (dout : String), bytes ≠ [] →
      (encode_lower bytes).length = 2 * bytes.length ∧
      ∃ p, debuginfo_path_for (encode_lower bytes) dout = some p) := by
  constructor
  · intro b dout h
    simp [debuginfo_path_for, h]
  · intro bytes dout h
    have hlen : (encode_lower bytes).length = 2 * bytes.length := hexFold_length bytes
    refine ⟨hlen, ?_⟩
    have hpos : 0 < bytes.length := List.length_pos.mpr h
    rw [debuginfo_path_for, if_neg (by rw [hlen]; omega)]
    exact ⟨_, rfl⟩

/-- C10 witness: a one-character buildid panics; the two-character encoding
of one byte does not. -/
theorem c10_slice_safety_witness :
    debuginfo_path_for "a" "/nix/store/bbb-hello-debug" = none ∧
    (encode_lower [171]).length = 2 * 1 :=
  ⟨c10_slice_safety.1 "a" "/nix/store/bbb-hello-debug" (by decide),
   (c10_slice_safety.2 [171] "/nix/store/bbb-hello-debug" (by decide)).1⟩

/-- C6: every lookup handler, after retrieving the stored path, calls
`realise` on it before opening it (in the effect trace, an `openFile` is
always preceded by a `realiseCall` on the same path); the response is 404
when the cache has no entry and when `realise` fails, and the file is served
only when `realise` succeeds.  The executable handler is literally the same
pipeline, and the source handler's miss and realise-failure cases also map
to 404. -/
theorem c6_lookup_realise_contract (cacheGet : String → Except String (Option String))
    (srcGet : String → Except String (Option String))
    (fileFor : String → String → Except String (Option String))
    (realiseOk : String → Bool) (buildid req : String) :
    (∀ p, (get_debuginfo cacheGet realiseOk buildid).2 = .serveFile p →
      cacheGet buildid = .ok (some p) ∧ realiseOk p = true) ∧
    (cacheGet buildid = .ok none →
      (get_debuginfo cacheGet realiseOk buildid).2 = .notFound) ∧
    (∀ e, cacheGet buildid = .error e →
      (get_debuginfo cacheGet realiseOk buildid).2 = .notFound) ∧
    (∀ p, cacheGet buildid = .ok (some p) → realiseOk p = false →
      (get_debuginfo cacheGet realiseOk buildid).2 = .notFound) ∧
    (∀ p, cacheGet buildid = .ok (some p) → realiseOk p = true →
      (get_debuginfo cacheGet realiseOk buildid).2 = .serveFile p) ∧
    (∀ (p : String) (i : Nat),
      (get_debuginfo cacheGet realiseOk buildid).1[i]? = some (ServeEvent.openFile p) →
      ∃ j : Nat, j < i ∧
        (get_debuginfo cacheGet realiseOk buildid).1[j]? = some (ServeEvent.realiseCall p)) ∧
    get_executable cacheGet realiseOk buildid = get_debuginfo cacheGet realiseOk buildid ∧
    (srcGet buildid = .ok none →
      (get_source srcGet realiseOk fileFor buildid req).2 = .notFound) ∧
    (∀ src, srcGet buildid = .ok (some src) → realiseOk src = false →
      (get_source srcGet realiseOk fileFor buildid req).2 = .notFound) := by
  refine ⟨?_, ?_, ?_, ?_, ?_, ?_, rfl, ?_, ?_⟩
  · intro p h
    rcases hc : cacheGet buildid with e | op
    · simp [get_debuginfo, unwrap_file, hc] at h
    · rcases op with _ | q
      · simp [get_debuginfo, unwrap_file, hc] at h
      · rcases hr : realiseOk q with _ | _
        · simp [get_debuginfo, unwrap_file, hc, hr] at h
        · simp [get_debuginfo, unwrap_file, hc, hr] at h
          cases h
          exact ⟨rfl, hr⟩
  · intro h
    simp [get_debuginfo, unwrap_file, h]
  · intro e h
    simp [get_debuginfo, unwrap_file, h]
  · intro p h hr
    simp [get_debuginfo, unwrap_file, h, hr]
  · intro p h hr
    simp [get_debuginfo, unwrap_file, h, hr]
  · intro p i h
    rcases hc : cacheGet buildid with e | op
    · simp [get_debuginfo, unwrap_file, hc] at h
    · rcases op with _ | q
      · simp [get_debuginfo, unwrap_file, hc] at h
      · rcases hr : realiseOk q with _ | _
        · rcases i with _ | i <;> simp [get_debuginfo, unwrap_file, hc, hr] at h
        · rcases i with _ | _ | i
          · simp [get_debuginfo, unwrap_file, hc, hr] at h
          · simp [get_debuginfo, unwrap_file, hc, hr] at h
            cases h
            exact ⟨0, by omega, by simp [get_debuginfo, unwrap_file, hc, hr]⟩
          · simp [get_debuginfo, unwrap_file, hc, hr] at h
  · intro h
    simp [get_source, fetch_and_get_source, unwrap_file, h]
  · intro src h hr
    simp [get_source, fetch_and_get_source, unwrap_file, h, hr]

/-- C6 witness: a cache hit whose path realises is served; an unknown
build-id is a 404. -/
theorem c6_lookup_realise_contract_witness :
    (get_debuginfo c6cache c6realise "0123abcd").2 = .serveFile "/nix/store/x/f" ∧
    (get_debuginfo c6cache c6realise "ffff").2 = .notFound :=
  ⟨(c6_lookup_realise_contract c6cache c6cache (fun _ _ => .ok none) c6realise
      "0123abcd" "src/main.c").2.2.2.2.1 "/nix/store/x/f" rfl rfl,
   (c6_lookup_realise_contract c6cache c6cache (fun _ _ => .ok none) c6realise
      "ffff" "src/main.c").2.1 rfl⟩

/-- C4: for a regular file with a buildid (of at least 2 characters) scanned
in an ordinary output with a known debug output `dout`, the prediction is
`dout/lib/debug/.build-id/b[0:2]/b[2:].debug`; the emitted entry carries that
prediction as `debuginfo` when the predicted file exists or when `dout` is
not present locally, and `none` when `dout` exists but the predicted file
does not. -/
theorem c4_debuginfo_prediction (w : World) (sp path b dout : String)
    (hdir : w.isDir sp = true) (hnd : pathEndsWithComp sp "-debug" = false)
    (hpath : path ∈ w.walkFiles sp)
    (hb : w.getBuildid path = some b) (hlen : 2 ≤ b.length)
    (hd : debug_output w sp = some dout) :
    debuginfo_path_for b dout = some (predictedDebugPath b dout) ∧
    ∃ en, ordinaryEntry w sp path = some en ∧ en ∈ register_store_path w sp ∧
      ((w.isFile (predictedDebugPath b dout) = true ∨ w.isDir dout = false) →
        en.debuginfo = some (predictedDebugPath b dout)) ∧
      (w.isDir dout = true → w.isFile (predictedDebugPath b dout) = false →
        en.debuginfo = none) := by
  have hpred : debuginfo_path_for b dout = some (predictedDebugPath b dout) := by
    rw [debuginfo_path_for, if_neg (by omega), pathPush_pred]
    rfl
  refine ⟨hpred, ?_⟩
  have hord : ordinaryEntry w sp path = some
      { buildid := b
        executable := some path
        debuginfo :=
          if w.isDir dout then
            if w.isFile (predictedDebugPath b dout) = false then none
            else some (predictedDebugPath b dout)
          else some (predictedDebugPath b dout)
        source := (deriver_source w sp).2 } := by
    simp only [ordinaryEntry, hb, hd, hpred]
  refine ⟨_, hord, ?_, ?_, ?_⟩
  · rw [register_store_path, hdir]
    simp only [hnd, Bool.false_eq_true, if_false, if_neg]
    exact List.mem_filterMap.mpr ⟨path, hpath, hord⟩
  · intro h
    rcases h with hf | hdd
    · cases hdd2 : w.isDir dout <;> simp [hf, hdd2]
    · simp [hdd]
  · intro hdd hf
    simp [hdd, hf]

/-- C4 witness: the concrete prediction for buildid `0123abcd` in
`/nix/store/bbb-hello-debug`. -/
theorem c4_debuginfo_prediction_witness :
    debuginfo_path_for "0123abcd" c4dout = some (predictedDebugPath "0123abcd" c4dout) :=
  (c4_debuginfo_prediction c4World c4sp c4exe "0123abcd" c4dout rfl (by decide)
    (by decide) rfl (by decide) rfl).1

/-! Batch-query lemmas. -/

theorem collectGo_ok (l : List Row) (h : ∀ r ∈ l, validStorePath r.path = true) :
    ∀ (acc : List String) (m : Nat),
      collectGo l acc m
        = .ok (acc ++ l.map Row.path, l.foldl (fun a r => Nat.max r.time a) m) := by
  induction l with
  | nil => intro acc m; simp [collectGo]
  | cons r rest ih =>
    intro acc m
    have hr : validStorePath r.path = true := h r (List.mem_cons_self r rest)
    simp only [collectGo, hr]
    rw [ih (fun x hx => h x (List.mem_cons_of_mem r hx)) (acc ++ [r.path]) (Nat.max r.time m)]
    simp [List.append_assoc]

theorem collectGo_err (l : List Row) (h : ∃ r ∈ l, validStorePath r.path = false) :
    ∀ (acc : List String) (m : Nat), ∃ e, collectGo l acc m = .error e := by
  induction l with
  | nil => simp at h
  | cons r rest ih =>
    intro acc m
    rcases hr : validStorePath r.path with _ | _
    · exact ⟨.corruptRow r.path, by simp [collectGo, hr]⟩
    · have hrest : ∃ x ∈ rest, validStorePath x.path = false := by
        rcases h with ⟨x, hx, hfx⟩
        rcases List.mem_cons.mp hx with rfl | hx2
        · rw [hr] at hfx; cases hfx
        · exact ⟨x, hx2, hfx⟩
      rcases ih hrest (acc ++ [r.path]) (Nat.max r.time m) with ⟨e, he⟩
      exact ⟨e, by simp [collectGo, hr, he]⟩

theorem foldlMax_init_le (l : List Row) :
    ∀ m : Nat, m ≤ l.foldl (fun a r => Nat.max r.time a) m := by
  induction l with
  | nil => intro m; simp
  | cons r rest ih =>
    intro m
    calc m ≤ Nat.max r.time m := Nat.le_max_right _ _
    _ ≤ _ := by rw [List.foldl_cons]; exact ih _

theorem foldlMax_le (l : List Row) :
    ∀ (m : Nat) (r : Row), r ∈ l → r.time ≤ l.foldl (fun a r => Nat.max r.time a) m := by
  induction l with
  | nil => intro m r hr; simp at hr
  | cons x rest ih =>
    intro m r hr
    rcases List.mem_cons.mp hr with rfl | h2
    · calc r.time ≤ Nat.max r.time m := Nat.le_max_left _ _
      _ ≤ _ := by rw [List.foldl_cons]; exact foldlMax_init_le rest _
    · rw [List.foldl_cons]; exact ih _ r h2

theorem foldlMax_cases (l : List Row) : ∀ m : Nat,
    l.foldl (fun a r => Nat.max r.time a) m = m ∨
    ∃ r ∈ l, l.foldl (fun a r => Nat.max r.time a) m = r.time := by
  induction l with
  | nil => intro m; left; rfl
  | cons x rest ih =>
    intro m
    rw [List.foldl_cons]
    rcases ih (Nat.max x.time m) with h | ⟨r, hr, he⟩
    · rcases Nat.le_total x.time m with hle | hle
      · left
        rw [h]
        exact Nat.le_antisymm (Nat.max_le.mpr ⟨hle, Nat.le_refl m⟩) (Nat.le_max_right _ _)
      · right
        refine ⟨x, List.mem_cons_self x rest, ?_⟩
        rw [h]
        exact Nat.le_antisymm (Nat.max_le.mpr ⟨Nat.le_refl _, hle⟩) (Nat.le_max_left _ _)
    · right; exact ⟨r, List.mem_cons_of_mem x hr, he⟩

theorem maxCandidate_eq_none (db : List Row) (lo : Nat) (h : ∀ r ∈ db, r.time < lo) :
    maxCandidate db lo = none := by
  have hf : db.filter (fun r => decide (lo ≤ r.time)) = [] := by
    rw [List.filter_eq_nil_iff]
    intro r hr
    have := h r hr
    simp only [decide_eq_true_eq]
    omega
  have hct : candidateTimes db lo = [] := by
    unfold candidateTimes
    rw [hf]
    rfl
  unfold maxCandidate
  rw [hct]

theorem batchRows_subset (db : List Row) (lo : Nat) (r : Row) (h : r ∈ batchRows db lo) :
    r ∈ db := by
  unfold batchRows at h
  rcases hm : maxCandidate db lo with _ | T <;> rw [hm] at h
  · simp at h
  · exact (List.mem_filter.mp h).1

/-- C2 (amended): the batch returns exactly the rows whose registration time
lies between `lo` and the maximum of the first 100 candidate times (so more
than 100 rows are possible when times tie at that maximum), paired with
`max + 1` where `max` is the running maximum of the returned times; when no
row has time `≥ lo` it returns `([], 1)` — `max_time + 1` with `max_time`
still 0 — not `([], lo)`. -/
theorem c2_batch_query_spec (db : List Row) (lo : Nat)
    (hvalid : ∀ r ∈ db, validStorePath r.path = true)
    (hpos : ∀ r ∈ db, 1 ≤ r.time) :
    get_new_store_path_batch db lo =
      .ok ((batchRows db lo).map Row.path, rowsMax (batchRows db lo) + 1) ∧
    (∀ r : Row, r ∈ batchRows db lo ↔
      ∃ T, maxCandidate db lo = some T ∧ r ∈ db ∧ lo ≤ r.time ∧ r.time ≤ T) ∧
    (∀ r ∈ batchRows db lo, r.time ≤ rowsMax (batchRows db lo)) ∧
    (batchRows db lo ≠ [] →
      ∃ r ∈ batchRows db lo, rowsMax (batchRows db lo) = r.time) ∧
    ((∀ r ∈ db, r.time < lo) → get_new_store_path_batch db lo = .ok ([], 1)) := by
  have hv2 : ∀ r ∈ batchRows db lo, validStorePath r.path = true :=
    fun r hr => hvalid r (batchRows_subset db lo r hr)
  have hco := collectGo_ok (batchRows db lo) hv2 [] 0
  rw [List.nil_append] at hco
  refine ⟨?_, ?_, ?_, ?_, ?_⟩
  · have hxor : (((batchRows db lo).foldl (fun a r => Nat.max r.time a) 0 == 0)
        ^^ ((batchRows db lo).map Row.path).isEmpty) = false := by
      rcases hrows : batchRows db lo with _ | ⟨r0, rs⟩
      · rfl
      · have h1 : 1 ≤ r0.time := hpos r0 (batchRows_subset db lo r0
          (by rw [hrows]; exact List.mem_cons_self r0 rs))
        have h2 : r0.time ≤ (r0 :: rs).foldl (fun a r => Nat.max r.time a) 0 :=
          foldlMax_le (r0 :: rs) 0 r0 (List.mem_cons_self r0 rs)
        have h4 : ¬ (r0 :: rs).foldl (fun a r => Nat.max r.time a) 0 = 0 := by omega
        rw [beq_eq_false_iff_ne.mpr h4]
        simp
    unfold get_new_store_path_batch
    rw [hco]
    simp [hxor, rowsMax]
  · intro r
    unfold batchRows
    rcases hm : maxCandidate db lo with _ | T
    · simp
    · simp only [List.mem_filter, Bool.and_eq_true, decide_eq_true_eq, Option.some.injEq]
      constructor
      · rintro ⟨hrdb, h1, h2⟩
        exact ⟨T, rfl, hrdb, h1, h2⟩
      · rintro ⟨T2, hT2, hrdb, h1, h2⟩
        cases hT2
        exact ⟨hrdb, h1, h2⟩
  · intro r hr
    exact foldlMax_le (batchRows db lo) 0 r hr
  · intro hne
    rcases foldlMax_cases (batchRows db lo) 0 with h0 | ⟨r, hr, he⟩
    · rcases List.exists_mem_of_ne_nil _ hne with ⟨r0, hr0⟩
      have h1 : 1 ≤ r0.time := hpos r0 (batchRows_subset db lo r0 hr0)
      have h2 : r0.time ≤ rowsMax (batchRows db lo) := foldlMax_le _ 0 r0 hr0
      rw [rowsMax] at h2
      omega
    · exact ⟨r, hr, he⟩
  · intro hlt
    have hnone := maxCandidate_eq_none db lo hlt
    have hempty : batchRows db lo = [] := by unfold batchRows; rw [hnone]
    unfold get_new_store_path_batch
    rw [hempty]
    rfl

/-- C2 counterexample: with an empty candidate set and `lo = 5` the query
returns `([], 1)`, not `([], lo)`. -/
theorem c2_empty_batch_counterexample :
    get_new_store_path_batch [] 5 = .ok ([], 1) ∧ (1 : Nat) ≠ 5 :=
  ⟨rfl, by omega⟩

/-- C2 witness: one row at time 7, watermark 3. -/
theorem c2_batch_query_spec_witness :
    get_new_store_path_batch [{ path := "/nix/store/abc-hello", time := 7 }] 3
      = .ok (["/nix/store/abc-hello"], 8) :=
  (c2_batch_query_spec [{ path := "/nix/store/abc-hello", time := 7 }] 3
    (by decide) (by decide)).1

/-- C3 (amended): a successful batch result satisfies
`(max_time == 0) ↔ paths.is_empty()`; it is the XOR of the two being *true*
(exactly one of them holding) that makes the query return an error —
store.rs:382 bails when `(max_time == 0) ^ paths.is_empty()`. -/
theorem c3_consistency_check (db : List Row) (lo : Nat) (paths : List String) (m : Nat)
    (h : collectGo (batchRows db lo) [] 0 = .ok (paths, m)) :
    (((m == 0) ^^ paths.isEmpty) = true →
      get_new_store_path_batch db lo = .error .inconsistent) ∧
    (((m == 0) ^^ paths.isEmpty) = false →
      get_new_store_path_batch db lo = .ok (paths, m + 1)) := by
  unfold get_new_store_path_batch
  rw [h]
  constructor <;> intro hx <;> simp [hx]

/-- C3 counterexample: on an empty database the claimed condition
`(max_time == 0) XOR paths.is_empty()` is false (both sides hold), yet the
query succeeds instead of returning the error the claim requires. -/
theorem c3_xor_counterexample :
    get_new_store_path_batch [] 0 = .ok ([], 1) ∧
    ((((0 : Nat) == 0) ^^ (List.isEmpty ([] : List String))) = false) :=
  ⟨rfl, rfl⟩

/-- C3 witness: a row with registration time 0 makes the XOR true and the
query errors. -/
theorem c3_consistency_check_witness :
    get_new_store_path_batch [{ path := "/nix/store/a-b", time := 0 }] 0
      = .error .inconsistent :=
  (c3_consistency_check [{ path := "/nix/store/a-b", time := 0 }] 0
    ["/nix/store/a-b"] 0 rfl).1 (by decide)

/-- C7: a returned row whose path lacks the store prefix or does not have
exactly three slashes aborts the whole batch with an error, and the poller
does not advance the watermark on an errored batch. -/
theorem c7_corrupt_row_rejection (db : List Row) (lo : Nat)
    (h : ∃ r ∈ batchRows db lo, validStorePath r.path = false) :
    (∃ e, get_new_store_path_batch db lo = .error e) ∧
    pollerStep lo (get_new_store_path_batch db lo) = lo := by
  rcases collectGo_err (batchRows db lo) h [] 0 with ⟨e, he⟩
  have hg : get_new_store_path_batch db lo = .error e := by
    unfold get_new_store_path_batch
    rw [he]
  exact ⟨⟨e, hg⟩, by rw [hg]; rfl⟩

/-- C7 witness: a corrupt row `bad` at time 3. -/
theorem c7_corrupt_row_rejection_witness :
    (∃ e, get_new_store_path_batch [{ path := "bad", time := 3 }] 0 = .error e) ∧
    pollerStep 0 (get_new_store_path_batch [{ path := "bad", time := 3 }] 0) = 0 :=
  c7_corrupt_row_rejection [{ path := "bad", time := 3 }] 0 (by decide)

/-! Pipeline-barrier lemmas. -/

theorem step_committed_mono {cfg : List Nat} {s s2 : PipeState} {ev : PipeEvent}
    (h : step cfg s ev = some s2) (hc : s.committed = true) : s2.committed = true := by
  cases ev <;> simp only [step] at h <;> repeat' split at h
  all_goals first
    | exact Option.noConfusion h
    | (injection h with h2; rw [← h2]; try first | rfl | exact hc)

theorem all_set_true (l : List Bool) (p : Nat) (h : l.all (fun b => b) = true) :
    (l.set p true).all (fun b => b) = true := by
  rw [List.all_eq_true] at h ⊢
  intro x hx
  rcases List.mem_or_eq_of_mem_set hx with h1 | h1
  · exact h x h1
  · rw [h1]

theorem step_allDoneInv {cfg : List Nat} {s s2 : PipeState} {ev : PipeEvent}
    (h : step cfg s ev = some s2) (hi : allDoneInv s) : allDoneInv s2 := by
  cases ev with
  | offer p e =>
    simp only [step] at h
    repeat' split at h
    all_goals first
      | exact Option.noConfusion h
      | (injection h with h2; intro hc2; rw [← h2] at hc2 ⊢; exact hi hc2)
  | done p =>
    simp only [step] at h
    repeat' split at h
    all_goals first
      | exact Option.noConfusion h
      | (injection h with h2; intro hc2; rw [← h2] at hc2 ⊢; exact all_set_true _ _ (hi hc2))
  | register p e =>
    simp only [step] at h
    repeat' split at h
    all_goals first
      | exact Option.noConfusion h
      | (injection h with h2; intro hc2; rw [← h2] at hc2 ⊢; exact hi hc2)
  | commit =>
    simp only [step] at h
    split at h
    · rename_i hcond
      injection h with h2
      intro hc2
      rw [← h2]
      exact hcond.1
    · cases h

theorem commit_sets_committed {cfg : List Nat} {s s2 : PipeState}
    (h : step cfg s PipeEvent.commit = some s2) : s2.committed = true := by
  simp only [step] at h
  split at h
  · injection h with h2
    rw [← h2]
  · cases h

theorem offer_disabled {cfg : List Nat} {s : PipeState} (hi : allDoneInv s)
    (hc : s.committed = true) (p e : Nat) : step cfg s (PipeEvent.offer p e) = none := by
  simp only [step]
  rcases h1 : s.sent[p]? with _ | k
  · rfl
  rcases h2 : s.doneFlag[p]? with _ | df
  · rfl
  rcases h3 : cfg[p]? with _ | tot
  · rfl
  have hdf : df = true := by
    have hall := hi hc
    rw [List.all_eq_true] at hall
    have hmem : df ∈ s.doneFlag := by
      rcases List.getElem?_eq_some.mp h2 with ⟨hlt, hg⟩
      rw [← hg]
      exact List.getElem_mem hlt
    exact hall df hmem
  have hnot : ¬ (df = false ∧ e = k ∧ k < tot ∧ s.chan.length < chanCap) := by
    intro hcond
    rw [hdf] at hcond
    cases hcond.1
  simp [hnot]

theorem no_offer_after_commit {cfg : List Nat} :
    ∀ (tr : List PipeEvent) (s s' : PipeState), allDoneInv s → s.committed = true →
      run cfg s tr = some s' → ∀ (i p e : Nat), tr[i]? ≠ some (PipeEvent.offer p e) := by
  intro tr
  induction tr with
  | nil => intro s s' _ _ _ i p e; simp
  | cons ev tl ih =>
    intro s s' hi hc hrun i p e
    rw [run] at hrun
    rcases hst : step cfg s ev with _ | s2 <;> rw [hst] at hrun
    · cases hrun
    · rcases i with _ | i
      · intro hcontra
        simp only [List.getElem?_cons_zero, Option.some.injEq] at hcontra
        rw [hcontra] at hst
        rw [offer_disabled hi hc p e] at hst
        cases hst
      · simp only [List.getElem?_cons_succ]
        exact ih s2 s' (step_allDoneInv hst hi) (step_committed_mono hst hc) hrun i p e

theorem c8_offer_lt_commit_aux {cfg : List Nat} :
    ∀ (tr : List PipeEvent) (s s' : PipeState), allDoneInv s →
      run cfg s tr = some s' →
      ∀ (i j p e : Nat), tr[i]? = some (PipeEvent.offer p e) →
        tr[j]? = some PipeEvent.commit → i < j := by
  intro tr
  induction tr with
  | nil => intro s s' _ _ i j p e hoff _; simp at hoff
  | cons ev tl ih =>
    intro s s' hi hrun i j p e hoff hcom
    rw [run] at hrun
    rcases hst : step cfg s ev with _ | s2 <;> rw [hst] at hrun
    · cases hrun
    rcases j with _ | j
    · simp only [List.getElem?_cons_zero, Option.some.injEq] at hcom
      rcases i with _ | i
      · simp only [List.getElem?_cons_zero, Option.some.injEq] at hoff
        rw [hcom] at hoff
        cases hoff
      · simp only [List.getElem?_cons_succ] at hoff
        rw [hcom] at hst
        exact absurd hoff
          (no_offer_after_commit tl s2 s' (step_allDoneInv hst hi)
            (commit_sets_committed hst) hrun i p e)
    · rcases i with _ | i
      · exact Nat.succ_pos j
      · simp only [List.getElem?_cons_succ] at hoff hcom
        exact Nat.succ_lt_succ
          (ih s2 s' (step_allDoneInv hst hi) hrun i j p e hoff hcom)

/-- C8 (amended): in every legal interleaving of a batch, the
`set_registration_timestamp` call happens-after every *offer* of an entry to
the writer channel (each scan's sends precede its completion signal, and the
commit waits for all completions); it does not happen-after every
`cache.register` call — the writer task may still be draining the channel
when the watermark is committed, as the counterexample trace shows. -/
theorem c8_barrier_offers (cfg : List Nat) (tr : List PipeEvent)
    (h : validTrace cfg tr = true) (i j p e : Nat)
    (hoff : tr[i]? = some (PipeEvent.offer p e))
    (hcom : tr[j]? = some PipeEvent.commit) : i < j := by
  unfold validTrace at h
  rcases ho : run cfg (initState cfg) tr with _ | s'
  · rw [ho] at h
    cases h
  · exact c8_offer_lt_commit_aux tr (initState cfg) s'
      (fun hc => Bool.noConfusion hc) ho i j p e hoff hcom

/-- C8 counterexample: a legal interleaving of a one-path, one-entry batch in
which the writer's `register` call runs only after
`set_registration_timestamp` — the `done_ch` barrier certifies that entries
were offered to the bounded entry channel, not that the writer has registered
them, so "commit happens-after every register" is false. -/
theorem c8_register_after_commit :
    validTrace [1] [PipeEvent.offer 0 0, PipeEvent.done 0, PipeEvent.commit,
      PipeEvent.register 0 0] = true ∧
    [PipeEvent.offer 0 0, PipeEvent.done 0, PipeEvent.commit,
      PipeEvent.register 0 0][2]? = some PipeEvent.commit ∧
    [PipeEvent.offer 0 0, PipeEvent.done 0, PipeEvent.commit,
      PipeEvent.register 0 0][3]? = some (PipeEvent.register 0 0) :=
  ⟨by decide, rfl, rfl⟩

/-- C8 witness: in the valid trace `[offer, done, commit]` the offer (index
0) precedes the commit (index 2). -/
theorem c8_barrier_offers_witness :
    validTrace [1] [PipeEvent.offer 0 0, PipeEvent.done 0, PipeEvent.commit] = true ∧
    (0 : Nat) < 2 :=
  ⟨by decide,
   c8_barrier_offers [1] [PipeEvent.offer 0 0, PipeEvent.done 0, PipeEvent.commit]
     (by decide) 0 2 0 0 (by decide) (by decide)⟩

end NixSDI
